import Mathlib

/-!
Verification development for the `roach` filesystem-backed task queue.

The definitions below are a shallow embedding of `roach/worker.py` and
`roach/submit.py`: the queue-directory layout, Python-style task-file
parsing, the submitter, the worker loop (snapshot, claim, precondition,
promote, run, terminal rename), the supervision loop (pause / resume /
external deletion), the SIGTERM handler installed while a task is
active, and the `kill_proc_tree` helper.  External effects (wall clock,
hostname, pid, shell subprocess exit codes, operator-driven filesystem
events) are passed in as explicit parameters or oracles.
-/

set_option maxHeartbeats 1000000

namespace Roach

/-- Python-style line splitting (the semantics of `for line in f`):
every segment ends right after a newline character, which stays
attached to its line; a final segment with no trailing newline is kept
as a last line; the empty string yields no lines. -/
def pyLinesAux : List Char → List Char → List (List Char)
  | acc, [] => if acc = [] then [] else [acc.reverse]
  | acc, c :: cs =>
    if c = '\n' then (acc.reverse ++ ['\n']) :: pyLinesAux [] cs
    else pyLinesAux (c :: acc) cs

/-- The lines of a string, Python style (newlines kept). -/
def pyLines (s : String) : List String :=
  (pyLinesAux [] s.data).map (fun l => ⟨l⟩)

/-- Concatenation of a list of strings (the accumulation `chk += line`
performed by the worker while reading a task file). -/
def joinStr : List String → String
  | [] => ""
  | s :: ss => s ++ joinStr ss

/-- Prefix test on character lists. -/
def startsWithL : List Char → List Char → Bool
  | [], _ => true
  | _ :: _, [] => false
  | a :: as, b :: bs => a = b && startsWithL as bs

/-- Python's `str.startswith(pat)`: code-point prefix test. -/
def pyStartsWith (l pat : String) : Bool := startsWithL pat.data l.data

/-- Lines collected by the worker's first read loop
(`for line in f: if line.startswith("---"): break; chk += line`,
worker.py lines 82-87): everything strictly before the first line that
starts with `---`. -/
def chkLines : List String → List String
  | [] => []
  | l :: ls => if pyStartsWith l "---" then [] else l :: chkLines ls

/-- Lines remaining after the first line that starts with `---` has
been consumed (the state of the file iterator after the first read
loop breaks); if no such line exists the iterator is exhausted. -/
def afterSep : List String → List String
  | [] => []
  | l :: ls => if pyStartsWith l "---" then ls else afterSep ls

/-- Lines collected by the worker's command read loop
(`for line in f: if line.startswith("==="): break; cmd += line`,
worker.py lines 116-120): everything strictly before the first line
that starts with `===`. -/
def cmdLines : List String → List String
  | [] => []
  | l :: ls => if pyStartsWith l "===" then [] else l :: cmdLines ls

/-- The precondition text the worker reads from a task file
(worker.py lines 82-87). -/
def readChk (content : String) : String :=
  joinStr (chkLines (pyLines content))

/-- The command text the worker reads from a task file
(worker.py lines 112-120). -/
def readCmd (content : String) : String :=
  joinStr (cmdLines (afterSep (pyLines content)))

/-- Splitting of a character list at `.` (the semantics of Python's
`str.split(".")`). -/
def splitDotAux : List Char → List Char → List (List Char)
  | acc, [] => [acc.reverse]
  | acc, c :: cs =>
    if c = '.' then acc.reverse :: splitDotAux [] cs
    else splitDotAux (c :: acc) cs

/-- `socket.gethostname().split(".")[0]`: the hostname truncated at the
first dot (worker.py line 41). -/
def shortHost (h : String) : String :=
  ⟨(splitDotAux [] h.data).headD []⟩

/-- Python's rendering of an `Option String` inside an f-string:
`None` prints as the four characters `None` (worker.py line 43 embeds
`os.environ.get('CUDA_VISIBLE_DEVICES')` directly into the id). -/
def pyShowOpt : Option String → String
  | none => "None"
  | some s => s

/-- `make_worker_id` (worker.py lines 39-43), with the ambient inputs
(formatted timestamp, hostname, pid, `CUDA_VISIBLE_DEVICES`) passed
explicitly. -/
def make_worker_id (ts host : String) (pid : Nat)
    (cudaVisibleDevices : Option String) : String :=
  "worker_" ++ ts ++ "_" ++ shortHost host ++ "_" ++ toString pid
    ++ "_gpus=" ++ pyShowOpt cudaVisibleDevices

/-- One file of the queue filesystem: the directory it lives in (kept
as the full directory path string), its basename, and its content. -/
structure Entry where
  dir : String
  name : String
  content : String
deriving DecidableEq, Repr

/-- Lookup of a file's content by directory and basename. -/
def findFile : List Entry → String → String → Option String
  | [], _, _ => none
  | e :: es, d, n =>
    if e.dir = d ∧ e.name = n then some e.content else findFile es d n

/-- Removal of a file by directory and basename. -/
def removeFile : List Entry → String → String → List Entry
  | [], _, _ => []
  | e :: es, d, n =>
    if e.dir = d ∧ e.name = n then removeFile es d n
    else e :: removeFile es d n

/-- Basenames of the files in a given directory. -/
def dirNames : List Entry → String → List String
  | [], _ => []
  | e :: es, d => if e.dir = d then e.name :: dirNames es d else dirNames es d

/-- Lexicographic (code-point) comparison of character lists, the order
Python's `sorted` uses on path strings. -/
def lexLe : List Char → List Char → Bool
  | [], _ => true
  | _ :: _, [] => false
  | a :: as, b :: bs => if a = b then lexLe as bs else decide (a < b)

/-- Lexicographic comparison of strings. -/
def strLe (a b : String) : Bool := lexLe a.data b.data

/-- Insertion into a lexicographically sorted list of strings. -/
def insertStr (s : String) : List String → List String
  | [] => [s]
  | t :: ts => if strLe s t then s :: t :: ts else t :: insertStr s ts

/-- Lexicographic insertion sort (`sorted(...)` on directory entries,
worker.py line 64). -/
def sortStr : List String → List String
  | [] => []
  | s :: ss => insertStr s (sortStr ss)

/-- The modelled filesystem: the set of directories that exist and the
regular files.  Renames, writes and appends are the only mutations the
program performs. -/
structure FS where
  dirs : List String
  files : List Entry
deriving DecidableEq, Repr

/-- The empty filesystem. -/
def FS.empty : FS := ⟨[], []⟩

/-- Content of the file `d/n`, if present. -/
def FS.read (fs : FS) (d n : String) : Option String :=
  findFile fs.files d n

/-- Existence test for the file `d/n` (`Path(...).exists()`). -/
def FS.isFile (fs : FS) (d n : String) : Bool :=
  (fs.read d n).isSome

/-- Write (create or truncate) the file `d/n` with content `c`. -/
def FS.write (fs : FS) (d n c : String) : FS :=
  ⟨fs.dirs, ⟨d, n, c⟩ :: removeFile fs.files d n⟩

/-- Delete the file `d/n` if present. -/
def FS.erase (fs : FS) (d n : String) : FS :=
  ⟨fs.dirs, removeFile fs.files d n⟩

/-- POSIX rename of `d/n` to `d'/n'`: fails (as `FileNotFoundError`)
when the source is missing, otherwise atomically moves the content,
replacing any file already at the target. -/
def FS.rename (fs : FS) (d n d' n' : String) : Option FS :=
  match fs.read d n with
  | none => none
  | some c => some ((fs.erase d n).write d' n' c)

/-- Append to `d/n` (Python `open(path, "a")`), creating the file when
it does not exist. -/
def FS.append (fs : FS) (d n s : String) : FS :=
  fs.write d n (((fs.read d n).getD "") ++ s)

/-- `Path(d).mkdir(parents=True, exist_ok=True)`. -/
def FS.mkdirp (fs : FS) (d : String) : FS :=
  if d ∈ fs.dirs then fs else ⟨d :: fs.dirs, fs.files⟩

/-- Sorted listing of the basenames in directory `d`
(`sorted(Path(d).iterdir())`, worker.py line 64). -/
def FS.listDir (fs : FS) (d : String) : List String :=
  sortStr (dirNames fs.files d)

/-- The directory the worker polls for tasks, `f"{queue_dir}/ready"`
(worker.py line 64). -/
def readyDir (Q : String) : String := Q ++ "/ready"

/-- The directory a claimed task is moved to while its precondition
runs, `f"{queue_dir}/check"` (worker.py line 75). -/
def checkDir (Q : String) : String := Q ++ "/check"

/-- The directory of the running task, `f"{queue_dir}/active"`
(worker.py line 101). -/
def activeDir (Q : String) : String := Q ++ "/active"

/-- The pause directory, `f"{queue_dir}/paused"` (worker.py line 145). -/
def pausedDir (Q : String) : String := Q ++ "/paused"

/-- The terminal success directory, `f"{queue_dir}/done"`
(worker.py line 167). -/
def doneDir (Q : String) : String := Q ++ "/done"

/-- The terminal failure directory, `f"{queue_dir}/failed"`
(worker.py line 170). -/
def failedDir (Q : String) : String := Q ++ "/failed"

/-- The directory the submitter writes into, `f"{queue_dir}/queued"`
(submit.py line 15). -/
def queuedDir (Q : String) : String := Q ++ "/queued"

/-- `submit` (submit.py lines 12-24): ensures the parent directory of
the task file exists, writes `chk`, the line `---`, and `cmd` into a
fresh task file under `queued`, and returns the completion-witness
shell expression `test -f '<Q>/done/<task_id>'`.  The generated task id
and the filesystem are explicit parameters. -/
def submit (fs : FS) (taskId : String) (queue_dir cmd : String)
    (chk : String := "true") : FS × String :=
  let fs1 := fs.mkdirp (queuedDir queue_dir)
  let fs2 := fs1.write (queuedDir queue_dir) taskId (chk ++ "\n---\n" ++ cmd)
  let done_file := queue_dir ++ "/done/" ++ taskId
  (fs2, "test -f '" ++ done_file ++ "'")

/-- A process tree: the child the worker spawned and all transitively
spawned descendants. -/
inductive ProcTree where
  | node (pid : Nat) (children : List ProcTree)
deriving Repr

mutual

/-- All pids in a process tree (root included). -/
def ProcTree.pids : ProcTree → List Nat
  | .node p cs => p :: ProcTree.pidsList cs

/-- All pids in a list of process trees. -/
def ProcTree.pidsList : List ProcTree → List Nat
  | [] => []
  | t :: ts => ProcTree.pids t ++ ProcTree.pidsList ts

end

/-- The root pid of a process tree. -/
def ProcTree.rootPid : ProcTree → Nat
  | .node p _ => p

/-- `parent.children(recursive=True)`: every pid strictly below the
root. -/
def ProcTree.descendants : ProcTree → List Nat
  | .node _ cs => ProcTree.pidsList cs

/-- POSIX signal names used by the worker. -/
inductive Sig where
  | sigterm
  | sigkill
  | sigstop
  | sigcont
deriving DecidableEq, Repr

/-- `kill_proc_tree` (worker.py lines 14-33): the list of
`(pid, signal)` deliveries it performs, namely `sig` to every
recursive child and, when `include_parent` holds, to the root as well
(psutil appends the parent after the children). -/
def kill_proc_tree (t : ProcTree) (sig : Sig) (includeParent : Bool) :
    List (Nat × Sig) :=
  (if includeParent then t.descendants ++ [t.rootPid] else t.descendants).map
    (fun p => (p, sig))

/-- Observable actions of the worker loop, in program order. -/
inductive Act where
  | rename (fromDir toDir : String)
  | runCheck (chk : String)
  | runCmd (cmd : String)
  | banner (wid : String)
  | exit0
  | sleep
deriving DecidableEq, Repr

/-- Python exceptions the embedding tracks; an uncaught one aborts the
worker process with a non-zero exit status. -/
inductive PyErr where
  | fileNotFound
deriving DecidableEq, Repr

/-- Outcome of processing one snapshot entry. -/
inductive TaskOutcome where
  | skipped
  | released
  | finished (code : Int)
deriving DecidableEq, Repr

/-- The body of the worker's for-loop for one snapshot entry
(worker.py lines 70-174), without external interference while the
command itself runs: claim by rename `ready → check` (a missing source
is caught and the entry skipped, lines 74-79); read the precondition
(lines 82-87) and run it through the shell oracle `exec`
(lines 90-92), during which the external world may mutate the
filesystem (`interfere`); on non-zero, rename `check → ready` and
continue (lines 94-97); on zero, rename `check → active` unguarded
(line 101), re-read the file for the command (lines 112-120), append
the worker banner (lines 124-125), run the command, and rename into
`done` or `failed` by exit code (lines 164-170). -/
def processTask (Q wid : String) (exec : String → Int) (interfere : FS → FS)
    (fs : FS) (taskId : String) : Except PyErr (FS × TaskOutcome × List Act) :=
  match fs.rename (readyDir Q) taskId (checkDir Q) taskId with
  | none => .ok (fs, .skipped, [])
  | some fs1 =>
    match fs1.read (checkDir Q) taskId with
    | none => .error .fileNotFound
    | some content =>
      let chk := readChk content
      let fs2 := interfere fs1
      if exec chk ≠ 0 then
        match fs2.rename (checkDir Q) taskId (readyDir Q) taskId with
        | none => .error .fileNotFound
        | some fs3 =>
          .ok (fs3, .released,
            [.rename (readyDir Q) (checkDir Q), .runCheck chk,
             .rename (checkDir Q) (readyDir Q)])
      else
        match fs2.rename (checkDir Q) taskId (activeDir Q) taskId with
        | none => .error .fileNotFound
        | some fs3 =>
          match fs3.read (activeDir Q) taskId with
          | none => .error .fileNotFound
          | some content2 =>
            let cmd := readCmd content2
            let fs4 := fs3.append (activeDir Q) taskId
              ("\n=== " ++ wid ++ " ===\n")
            let code := exec cmd
            let tgt := if code = 0 then doneDir Q else failedDir Q
            match fs4.rename (activeDir Q) taskId tgt taskId with
            | none => .error .fileNotFound
            | some fs5 =>
              .ok (fs5, .finished code,
                [.rename (readyDir Q) (checkDir Q), .runCheck chk,
                 .rename (checkDir Q) (activeDir Q), .banner wid,
                 .runCmd cmd, .rename (activeDir Q) tgt])

/-- The worker's for-loop over one snapshot (worker.py lines 70-174):
process the entries in order; when `one_task` is set, `sys.exit(0)`
right after the first terminal transition (lines 172-174), leaving the
rest of the snapshot unprocessed.  The returned Bool records whether
the loop exited via `one_task`. -/
def runTasks (Q wid : String) (exec : String → Int) (interfere : FS → FS)
    (oneTask : Bool) : FS → List String → Except PyErr (FS × Bool × List Act)
  | fs, [] => .ok (fs, false, [])
  | fs, tid :: rest =>
    match processTask Q wid exec interfere fs tid with
    | .error e => .error e
    | .ok (fs1, .skipped, acts) =>
      match runTasks Q wid exec interfere oneTask fs1 rest with
      | .error e => .error e
      | .ok (fs2, b, acts2) => .ok (fs2, b, acts ++ acts2)
    | .ok (fs1, .released, acts) =>
      match runTasks Q wid exec interfere oneTask fs1 rest with
      | .error e => .error e
      | .ok (fs2, b, acts2) => .ok (fs2, b, acts ++ acts2)
    | .ok (fs1, .finished _, acts) =>
      if oneTask then .ok (fs1, true, acts ++ [.exit0])
      else
        match runTasks Q wid exec interfere oneTask fs1 rest with
        | .error e => .error e
        | .ok (fs2, b, acts2) => .ok (fs2, b, acts ++ acts2)

/-- How one pass of the worker's while-loop ended. -/
inductive IterRes where
  | exitEmpty
  | exitOneTask
  | looped
deriving DecidableEq, Repr

/-- One pass of the worker's while-loop (worker.py lines 62-178):
snapshot and sort `ready`; with `persist` unset and an empty snapshot,
`sys.exit(0)` immediately (lines 66-68); otherwise process the
snapshot and then sleep `SLEEP_TIME` before looping (line 177). -/
def workerIter (Q wid : String) (exec : String → Int) (interfere : FS → FS)
    (persist oneTask : Bool) (fs : FS) : Except PyErr (FS × IterRes × List Act) :=
  let snap := fs.listDir (readyDir Q)
  if !persist && snap.isEmpty then .ok (fs, .exitEmpty, [.exit0])
  else
    match runTasks Q wid exec interfere oneTask fs snap with
    | .error e => .error e
    | .ok (fs1, true, acts) => .ok (fs1, .exitOneTask, acts)
    | .ok (fs1, false, acts) => .ok (fs1, .looped, acts ++ [.sleep])

/-- How a fueled run of the worker loop ended. -/
inductive LoopRes where
  | exitedEmpty
  | exitedOneTask
  | running
deriving DecidableEq, Repr

/-- The worker's while-loop (worker.py lines 62-178), fueled: `running`
means the fuel ran out with the loop still going. -/
def workerLoop (Q wid : String) (exec : String → Int) (interfere : FS → FS)
    (persist oneTask : Bool) : FS → Nat → Except PyErr (FS × LoopRes)
  | fs, 0 => .ok (fs, .running)
  | fs, fuel + 1 =>
    match workerIter Q wid exec interfere persist oneTask fs with
    | .error e => .error e
    | .ok (fs1, .exitEmpty, _) => .ok (fs1, .exitedEmpty)
    | .ok (fs1, .exitOneTask, _) => .ok (fs1, .exitedOneTask)
    | .ok (fs1, .looped, _) => workerLoop Q wid exec interfere persist oneTask fs1 fuel

/-- Worker startup (worker.py lines 55-57): idempotently create the six
state directories. -/
def workerInit (Q : String) (fs : FS) : FS :=
  [readyDir Q, checkDir Q, activeDir Q, pausedDir Q, doneDir Q,
   failedDir Q].foldl FS.mkdirp fs

/-- `worker` (worker.py lines 46-178): directory creation followed by
the fueled loop. -/
def worker (Q wid : String) (exec : String → Int) (interfere : FS → FS)
    (persist oneTask : Bool) (fs : FS) (fuel : Nat) :
    Except PyErr (FS × LoopRes) :=
  workerLoop Q wid exec interfere persist oneTask (workerInit Q fs) fuel

/-- The SIGTERM handler installed while the task command runs
(worker.py lines 134-140): SIGKILL the whole process tree rooted at the
child, rename the task file from `active` back into the polled
directory, and exit the worker with status 0.  Returns the signal
deliveries, the filesystem after the rename (none when the rename
itself raises), and the exit status. -/
def sigtermActiveHandler (Q taskId : String) (tree : ProcTree) (fs : FS) :
    List (Nat × Sig) × Option FS × Nat :=
  (kill_proc_tree tree .sigkill true,
   fs.rename (activeDir Q) taskId (readyDir Q) taskId, 0)

/-- What the worker can observe at one instant while supervising the
running command: the child's `poll()` result and whether the task file
is currently at its `active` path or at its `paused` path. -/
structure World where
  poll : Option Int
  inActive : Bool
  inPaused : Bool

/-- Actions of the supervision loop (worker.py lines 142-174); the
three `...Tree` actions are `kill_proc_tree` calls on the child's
whole process tree. -/
inductive SAct where
  | sigstopTree
  | sigcontTree
  | sigkillTree
  | sleep
  | renameDone
  | renameFailed
  | exit0
deriving DecidableEq, Repr

/-- How the supervision loop ended. -/
inductive SOut where
  | terminal (code : Int)
  | cancelled
  | fuelOut
deriving DecidableEq, Repr

/-- The inner pause wait (worker.py lines 149-150):
`while Path(paused/id).exists(): time.sleep(SLEEP_TIME)`.  Returns the
sleeps performed and the time at which the file left `paused` (none if
the fuel ran out first). -/
def pauseWait (sched : Nat → World) : Nat → Nat → List SAct × Option Nat
  | _, 0 => ([], none)
  | t, fuel + 1 =>
    if (sched t).inPaused then
      let r := pauseWait sched (t + 1) fuel
      (.sleep :: r.1, r.2)
    else ([], some t)

/-- The supervision loop (worker.py lines 142-174), driven by the
schedule `sched` of externally determined observations at each tick.
While `poll()` is none: if the task file is at `active`, sleep and
loop; if it is at `paused`, SIGSTOP the tree, wait out the pause, then
either SIGCONT the tree and resume (file back in `active`) or SIGKILL
the tree and break without renaming (file gone); if it is at neither,
SIGKILL the tree and break without renaming.  When `poll()` returns,
rename into `done` or `failed` by exit code and, under `one_task`,
exit 0. -/
def supervise (sched : Nat → World) (oneTask : Bool) :
    Nat → Nat → List SAct × SOut
  | 0, _ => ([], .fuelOut)
  | fuel + 1, t =>
    match (sched t).poll with
    | some code =>
      if code = 0 then
        ((if oneTask then [.renameDone, .exit0] else [.renameDone]),
         .terminal code)
      else
        ((if oneTask then [.renameFailed, .exit0] else [.renameFailed]),
         .terminal code)
    | none =>
      if (sched t).inActive then
        let r := supervise sched oneTask fuel (t + 1)
        (.sleep :: r.1, r.2)
      else if (sched t).inPaused then
        let w := pauseWait sched t fuel
        match w.2 with
        | none => (.sigstopTree :: w.1, .fuelOut)
        | some t2 =>
          if (sched t2).inActive then
            let r := supervise sched oneTask fuel (t2 + 1)
            (.sigstopTree :: (w.1 ++ .sigcontTree :: .sleep :: r.1), r.2)
          else (.sigstopTree :: (w.1 ++ [.sigkillTree]), .cancelled)
      else ([.sigkillTree], .cancelled)

theorem findFile_removeFile_self (l : List Entry) (d n : String) :
    findFile (removeFile l d n) d n = none := by
  induction l with
  | nil => rfl
  | cons e es ih =>
    simp only [removeFile]
    by_cases h : e.dir = d ∧ e.name = n
    · rw [if_pos h]; exact ih
    · rw [if_neg h]
      simp only [findFile]
      rw [if_neg h]
      exact ih

theorem findFile_removeFile_of_ne (l : List Entry) (d n d' n' : String)
    (h : ¬(d = d' ∧ n = n')) :
    findFile (removeFile l d n) d' n' = findFile l d' n' := by
  induction l with
  | nil => rfl
  | cons e es ih =>
    simp only [removeFile, findFile]
    by_cases h1 : e.dir = d ∧ e.name = n
    · rw [if_pos h1]
      rw [ih]
      rw [if_neg ?_]
      rintro ⟨h2, h3⟩
      exact h ⟨h1.1 ▸ h2, h1.2 ▸ h3⟩
    · rw [if_neg h1]
      simp only [findFile]
      by_cases h2 : e.dir = d' ∧ e.name = n'
      · rw [if_pos h2, if_pos h2]
      · rw [if_neg h2, if_neg h2]
        exact ih

theorem FS.read_write_self (fs : FS) (d n c : String) :
    (fs.write d n c).read d n = some c := by
  simp [FS.read, FS.write, findFile]

theorem FS.read_write_of_ne (fs : FS) (d n c d' n' : String)
    (h : ¬(d = d' ∧ n = n')) :
    (fs.write d n c).read d' n' = fs.read d' n' := by
  simp only [FS.read, FS.write, findFile]
  rw [if_neg h]
  exact findFile_removeFile_of_ne _ _ _ _ _ h

theorem FS.read_erase_self (fs : FS) (d n : String) :
    (fs.erase d n).read d n = none := by
  simp [FS.read, FS.erase, findFile_removeFile_self]

theorem FS.read_erase_of_ne (fs : FS) (d n d' n' : String)
    (h : ¬(d = d' ∧ n = n')) :
    (fs.erase d n).read d' n' = fs.read d' n' := by
  simp [FS.read, FS.erase, findFile_removeFile_of_ne _ _ _ _ _ h]

theorem FS.rename_of_read (fs : FS) (d n d' n' c : String)
    (h : fs.read d n = some c) :
    fs.rename d n d' n' = some ((fs.erase d n).write d' n' c) := by
  simp [FS.rename, h]

theorem FS.rename_of_missing (fs : FS) (d n d' n' : String)
    (h : fs.read d n = none) :
    fs.rename d n d' n' = none := by
  simp [FS.rename, h]

theorem String.append_ne_of_ne (Q a b : String) (h : a ≠ b) :
    Q ++ a ≠ Q ++ b := by
  intro he
  apply h
  apply String.ext
  have hd := congrArg String.data he
  rw [String.data_append, String.data_append] at hd
  exact List.append_cancel_left hd

/-- Concatenation of character-list lines. -/
def joinL : List (List Char) → List Char
  | [] => []
  | l :: ls => l ++ joinL ls

theorem joinL_pyLinesAux (cs : List Char) : ∀ acc,
    joinL (pyLinesAux acc cs) = acc.reverse ++ cs := by
  induction cs with
  | nil =>
    intro acc
    by_cases h : acc = [] <;> simp [pyLinesAux, h, joinL]
  | cons c cs ih =>
    intro acc
    simp only [pyLinesAux]
    by_cases h : c = '\n'
    · rw [if_pos h]
      simp [joinL, ih, h]
    · rw [if_neg h]
      rw [ih]
      simp

theorem data_joinStr_map (L : List (List Char)) :
    (joinStr (L.map (fun l => (⟨l⟩ : String)))).data = joinL L := by
  induction L with
  | nil => rfl
  | cons l ls ih =>
    simp only [List.map, joinStr, joinL, String.data_append]
    rw [← ih]

theorem joinStr_pyLines (s : String) : joinStr (pyLines s) = s := by
  apply String.ext
  rw [pyLines, data_joinStr_map, joinL_pyLinesAux]
  simp

theorem chkLines_all_data (ls : List String)
    (h : ∀ l ∈ ls, pyStartsWith l "---" = false) : chkLines ls = ls := by
  induction ls with
  | nil => rfl
  | cons l ls ih =>
    simp only [chkLines, h l (List.mem_cons_self l ls), Bool.false_eq_true,
      if_false]
    rw [ih (fun x hx => h x (List.mem_cons_of_mem l hx))]

theorem chkLines_append (pre : List String) (sep : String) (rest : List String)
    (h1 : ∀ l ∈ pre, pyStartsWith l "---" = false)
    (h2 : pyStartsWith sep "---" = true) :
    chkLines (pre ++ sep :: rest) = pre := by
  induction pre with
  | nil => simp [chkLines, h2]
  | cons l pre ih =>
    simp only [List.cons_append, chkLines, h1 l (List.mem_cons_self l pre),
      Bool.false_eq_true, if_false]
    rw [List.append_eq, ih (fun x hx => h1 x (List.mem_cons_of_mem l hx))]

theorem afterSep_append (pre : List String) (sep : String) (rest : List String)
    (h1 : ∀ l ∈ pre, pyStartsWith l "---" = false)
    (h2 : pyStartsWith sep "---" = true) :
    afterSep (pre ++ sep :: rest) = rest := by
  induction pre with
  | nil => simp [afterSep, h2]
  | cons l pre ih =>
    simp only [List.cons_append, afterSep, h1 l (List.mem_cons_self l pre),
      Bool.false_eq_true, if_false]
    exact ih (fun x hx => h1 x (List.mem_cons_of_mem l hx))

theorem cmdLines_all_data (ls : List String)
    (h : ∀ l ∈ ls, pyStartsWith l "===" = false) : cmdLines ls = ls := by
  induction ls with
  | nil => rfl
  | cons l ls ih =>
    simp only [cmdLines, h l (List.mem_cons_self l ls), Bool.false_eq_true,
      if_false]
    rw [ih (fun x hx => h x (List.mem_cons_of_mem l hx))]

theorem cmdLines_append (mid : List String) (stop : String) (post : List String)
    (h3 : ∀ l ∈ mid, pyStartsWith l "===" = false)
    (h4 : pyStartsWith stop "===" = true) :
    cmdLines (mid ++ stop :: post) = mid := by
  induction mid with
  | nil => simp [cmdLines, h4]
  | cons l mid ih =>
    simp only [List.cons_append, cmdLines, h3 l (List.mem_cons_self l mid),
      Bool.false_eq_true, if_false]
    rw [List.append_eq, ih (fun x hx => h3 x (List.mem_cons_of_mem l hx))]

theorem pauseWait_eq (sched : Nat → World) (k : Nat) : ∀ (t fuel : Nat),
    (∀ i, i < k → (sched (t + i)).inPaused = true) →
    (sched (t + k)).inPaused = false → k < fuel →
    pauseWait sched t fuel = (List.replicate k .sleep, some (t + k)) := by
  induction k with
  | zero =>
    intro t fuel hk hend hfuel
    match fuel, hfuel with
    | f + 1, _ =>
      simp only [pauseWait]
      rw [Nat.add_zero] at hend
      simp [hend]
  | succ k ih =>
    intro t fuel hk hend hfuel
    match fuel, hfuel with
    | f + 1, hf =>
      have h0 : (sched t).inPaused = true := by
        have := hk 0 (Nat.succ_pos k)
        simpa using this
      simp only [pauseWait, h0, if_true]
      have hk2 : ∀ i, i < k → (sched (t + 1 + i)).inPaused = true := by
        intro i hi
        have := hk (i + 1) (by omega)
        have e : t + (i + 1) = t + 1 + i := by omega
        rwa [e] at this
      have hend2 : (sched (t + 1 + k)).inPaused = false := by
        have e : t + (k + 1) = t + 1 + k := by omega
        rwa [e] at hend
      rw [ih (t + 1) f hk2 hend2 (by omega)]
      have e : t + 1 + k = t + (k + 1) := by omega
      rw [e]
      rfl

theorem removeFile_of_missing (l : List Entry) (d n : String)
    (h : findFile l d n = none) : removeFile l d n = l := by
  induction l with
  | nil => rfl
  | cons e es ih =>
    simp only [findFile] at h
    by_cases h1 : e.dir = d ∧ e.name = n
    · rw [if_pos h1] at h
      cases h
    · rw [if_neg h1] at h
      simp only [removeFile]
      rw [if_neg h1, ih h]

theorem ne_pair_of_dir_ne {d d' : String} (n n' : String) (h : d ≠ d') :
    ¬(d = d' ∧ n = n') := fun hh => h hh.1

theorem FS.mkdirp_files (fs : FS) (d : String) : (fs.mkdirp d).files = fs.files := by
  unfold FS.mkdirp
  split <;> rfl

theorem FS.read_mkdirp (fs : FS) (dd d n : String) :
    (fs.mkdirp dd).read d n = fs.read d n := by
  simp [FS.read, FS.mkdirp_files]

theorem FS.mem_mkdirp_dirs (fs : FS) (d : String) : d ∈ (fs.mkdirp d).dirs := by
  unfold FS.mkdirp
  split
  · assumption
  · exact List.mem_cons_self d fs.dirs

theorem workerInit_files (Q : String) (fs : FS) :
    (workerInit Q fs).files = fs.files := by
  unfold workerInit
  simp only [List.foldl_cons, List.foldl_nil]
  simp [FS.mkdirp_files]

theorem listDir_workerInit (Q : String) (fs : FS) (d : String) :
    (workerInit Q fs).listDir d = fs.listDir d := by
  simp [FS.listDir, workerInit_files]

theorem strEmptyAppend (s : String) : "" ++ s = s := by
  apply String.ext
  rw [String.data_append]
  rfl

theorem splitDotAux_no_dot (a : List Char) : ∀ acc, '.' ∉ a →
    splitDotAux acc a = [acc.reverse ++ a] := by
  induction a with
  | nil =>
    intro acc h
    simp [splitDotAux]
  | cons c a ih =>
    intro acc h
    have hc : ¬ c = '.' := fun e => h (e ▸ List.mem_cons_self c a)
    simp only [splitDotAux]
    rw [if_neg hc, ih (c :: acc) (fun hm => h (List.mem_cons_of_mem c hm))]
    simp

theorem splitDotAux_dot (a : List Char) : ∀ acc (b : List Char), '.' ∉ a →
    splitDotAux acc (a ++ '.' :: b) = (acc.reverse ++ a) :: splitDotAux [] b := by
  induction a with
  | nil =>
    intro acc b h
    simp [splitDotAux]
  | cons c a ih =>
    intro acc b h
    have hc : ¬ c = '.' := fun e => h (e ▸ List.mem_cons_self c a)
    simp only [List.cons_append, splitDotAux, List.append_eq]
    rw [if_neg hc, ih (c :: acc) b (fun hm => h (List.mem_cons_of_mem c hm))]
    simp

/-- Claim C9 (amended): `make_worker_id` yields
`worker_<ts>_<short-hostname>_<pid>_gpus=<v>` where the short hostname
is the hostname truncated at the first dot and `<v>` is the value of
`CUDA_VISIBLE_DEVICES` when set, and the literal string `None` (Python's
rendering of an absent environment variable) when unset. -/
theorem c9_worker_id_format (ts host : String) (pid : Nat) :
    make_worker_id ts host pid none =
      "worker_" ++ ts ++ "_" ++ shortHost host ++ "_" ++ toString pid
        ++ "_gpus=" ++ "None"
    ∧ (∀ v, make_worker_id ts host pid (some v) =
        "worker_" ++ ts ++ "_" ++ shortHost host ++ "_" ++ toString pid
          ++ "_gpus=" ++ v)
    ∧ (∀ a b : List Char, '.' ∉ a → shortHost ⟨a ++ '.' :: b⟩ = ⟨a⟩)
    ∧ (∀ a : List Char, '.' ∉ a → shortHost ⟨a⟩ = ⟨a⟩) := by
  refine ⟨rfl, fun v => rfl, ?_, ?_⟩
  · intro a b h
    unfold shortHost
    rw [show (⟨a ++ '.' :: b⟩ : String).data = a ++ '.' :: b from rfl]
    rw [splitDotAux_dot a [] b h]
    rfl
  · intro a h
    unfold shortHost
    rw [show (⟨a⟩ : String).data = a from rfl]
    rw [splitDotAux_no_dot a [] h]
    rfl

/-- Claim C9, the claim as stated is false: with `CUDA_VISIBLE_DEVICES`
unset the id ends in `gpus=None`, not in an empty `gpus=`. -/
theorem c9_counterexample :
    make_worker_id "20240101_000000" "host" 42 none ≠
      "worker_20240101_000000_host_42_gpus="
    ∧ make_worker_id "20240101_000000" "host" 42 none =
      "worker_20240101_000000_host_42_gpus=None" := by
  exact ⟨by decide, by decide⟩

/-- Concrete instantiation of `c9_worker_id_format`. -/
theorem c9_worker_id_format_witness :
    shortHost ⟨['h', 'a'] ++ '.' :: ['x', 'y']⟩ = ⟨['h', 'a']⟩ := by
  exact (c9_worker_id_format "ts" "h" 1).2.2.1 ['h', 'a'] ['x', 'y'] (by decide)

/-- Claim C3: for every queue root, command and precondition (default
`true`), `submit` ensures the `queued` directory exists, writes exactly
one new task file whose content is the precondition, the `---`
separator line, and the command, and returns the completion witness
`test -f '<Q>/done/<task_id>'`. -/
theorem c3_submit_contract (fs : FS) (taskId Q cmd chk : String)
    (hfresh : fs.read (queuedDir Q) taskId = none) :
    (submit fs taskId Q cmd chk).2 =
      "test -f '" ++ Q ++ "/done/" ++ taskId ++ "'"
    ∧ (submit fs taskId Q cmd chk).1.read (queuedDir Q) taskId =
      some (chk ++ "\n---\n" ++ cmd)
    ∧ queuedDir Q ∈ (submit fs taskId Q cmd chk).1.dirs
    ∧ (∀ d n : String, ¬(d = queuedDir Q ∧ n = taskId) →
        (submit fs taskId Q cmd chk).1.read d n = fs.read d n)
    ∧ (submit fs taskId Q cmd chk).1.files =
      ⟨queuedDir Q, taskId, chk ++ "\n---\n" ++ cmd⟩ :: fs.files
    ∧ submit fs taskId Q cmd = submit fs taskId Q cmd "true" := by
  refine ⟨?_, ?_, ?_, ?_, ?_, rfl⟩
  · simp [submit, String.append_assoc]
  · simp [submit, FS.read_write_self]
  · simp only [submit]
    exact fs.mem_mkdirp_dirs (queuedDir Q)
  · intro d n hdn
    simp only [submit]
    rw [FS.read_write_of_ne _ _ _ _ _ _
      (fun hh => hdn ⟨hh.1.symm, hh.2.symm⟩)]
    exact FS.read_mkdirp fs (queuedDir Q) d n
  · simp only [submit, FS.write]
    rw [FS.mkdirp_files]
    rw [removeFile_of_missing fs.files (queuedDir Q) taskId hfresh]

/-- Concrete instantiation of `c3_submit_contract`. -/
theorem c3_submit_contract_witness :
    (submit FS.empty "task_1" "q" "echo hi" "true").2 =
      "test -f 'q/done/task_1'"
    ∧ (submit FS.empty "task_1" "q" "echo hi" "true").1.read
        (queuedDir "q") "task_1" = some "true\n---\necho hi" := by
  have h := c3_submit_contract FS.empty "task_1" "q" "echo hi" "true" rfl
  exact ⟨by rw [h.1]; decide, by rw [h.2.1]; decide⟩

/-- Claim C7: the first line beginning with `---` separates
precondition from command, the first subsequent line beginning with
`===` (if any) ends the command, every line strictly between them is
collected as the command exactly as written, and all other occurrences
of the markers (later `---` lines, `===` lines in the trailing log)
are data. -/
theorem c7_parse_delimiters (pre : List String) (sep : String)
    (mid : List String) (stop : String) (post : List String)
    (h1 : ∀ l ∈ pre, pyStartsWith l "---" = false)
    (h2 : pyStartsWith sep "---" = true)
    (h3 : ∀ l ∈ mid, pyStartsWith l "===" = false)
    (h4 : pyStartsWith stop "===" = true) :
    chkLines (pre ++ sep :: (mid ++ stop :: post)) = pre
    ∧ afterSep (pre ++ sep :: (mid ++ stop :: post)) = mid ++ stop :: post
    ∧ cmdLines (afterSep (pre ++ sep :: (mid ++ stop :: post))) = mid
    ∧ (∀ tail : List String, (∀ l ∈ tail, pyStartsWith l "===" = false) →
        cmdLines (afterSep (pre ++ sep :: tail)) = tail) := by
  refine ⟨chkLines_append pre sep _ h1 h2, afterSep_append pre sep _ h1 h2,
    ?_, ?_⟩
  · rw [afterSep_append pre sep _ h1 h2]
    exact cmdLines_append mid stop post h3 h4
  · intro tail htail
    rw [afterSep_append pre sep tail h1 h2]
    exact cmdLines_all_data tail htail

/-- Concrete instantiation of `c7_parse_delimiters`: a command with an
embedded `---` line is kept whole, and the `===` banner ends it. -/
theorem c7_parse_delimiters_witness :
    cmdLines (afterSep
      (["true\n"] ++ "---\n" ::
        (["echo a\n", "--- embedded ---\n", "echo b\n"] ++
          "=== worker_1 ===\n" :: ["old output\n"]))) =
      ["echo a\n", "--- embedded ---\n", "echo b\n"] := by
  exact (c7_parse_delimiters ["true\n"] "---\n"
    ["echo a\n", "--- embedded ---\n", "echo b\n"] "=== worker_1 ===\n"
    ["old output\n"] (by decide) (by decide) (by decide) (by decide)).2.2.1

theorem workerIter_noPersist_empty (Q wid : String) (exec : String → Int)
    (intf : FS → FS) (oneTask : Bool) (fs : FS)
    (h : fs.listDir (readyDir Q) = []) :
    workerIter Q wid exec intf false oneTask fs =
      .ok (fs, .exitEmpty, [.exit0]) := by
  simp [workerIter, h]

/-- Claim C1: the claim is in fact violated by the code: the submitter
writes the task file into `<Q>/queued` (submit.py line 15) while the
worker snapshots `<Q>/ready` and claims into `<Q>/check` (worker.py
lines 64 and 75).  These are different directories, so a freshly
submitted task is invisible to the worker: starting from an empty
filesystem, after one `submit` the task file sits under `queued`, the
worker's snapshot of `ready` is empty, and a non-persistent worker
exits immediately without ever claiming the task. -/
theorem c1_submit_worker_dir_mismatch (Q cmd chk taskId wid : String)
    (exec : String → Int) (fuel : Nat) :
    queuedDir Q ≠ readyDir Q
    ∧ (submit FS.empty taskId Q cmd chk).1.read (queuedDir Q) taskId =
        some (chk ++ "\n---\n" ++ cmd)
    ∧ (submit FS.empty taskId Q cmd chk).1.listDir (readyDir Q) = []
    ∧ worker Q wid exec (fun g => g) false false
        (submit FS.empty taskId Q cmd chk).1 (fuel + 1) =
      .ok (workerInit Q (submit FS.empty taskId Q cmd chk).1, .exitedEmpty) := by
  have hne : queuedDir Q ≠ readyDir Q :=
    String.append_ne_of_ne Q "/queued" "/ready" (by decide)
  have hfiles : (submit FS.empty taskId Q cmd chk).1.files =
      [⟨queuedDir Q, taskId, chk ++ "\n---\n" ++ cmd⟩] := by
    simp [submit, FS.write, FS.mkdirp, removeFile]
  have hlist : (submit FS.empty taskId Q cmd chk).1.listDir (readyDir Q) = [] := by
    rw [FS.listDir, hfiles]
    simp only [dirNames]
    rw [if_neg hne]
    rfl
  refine ⟨hne, ?_, hlist, ?_⟩
  · simp [submit, FS.read_write_self]
  · unfold worker
    have hlist2 : (workerInit Q (submit FS.empty taskId Q cmd chk).1).listDir
        (readyDir Q) = [] := by
      rw [listDir_workerInit]
      exact hlist
    simp only [workerLoop,
      workerIter_noPersist_empty Q wid exec (fun g => g) false _ hlist2]

/-- Concrete instantiation of `c1_submit_worker_dir_mismatch`. -/
theorem c1_submit_worker_dir_mismatch_witness :
    (submit FS.empty "task_1" "q" "echo hi" "true").1.read
      (queuedDir "q") "task_1" = some "true\n---\necho hi"
    ∧ (submit FS.empty "task_1" "q" "echo hi" "true").1.listDir
      (readyDir "q") = [] := by
  have h := c1_submit_worker_dir_mismatch "q" "echo hi" "true" "task_1" "w"
    (fun _ => 0) 0
  exact ⟨by rw [h.2.1]; decide, h.2.2.1⟩

theorem runTasks_not_oneTask (Q wid : String) (exec : String → Int)
    (intf : FS → FS) (ids : List String) : ∀ (fs : FS) r,
    runTasks Q wid exec intf false fs ids = .ok r → r.2.1 = false := by
  induction ids with
  | nil =>
    intro fs r h
    simp only [runTasks] at h
    cases h
    rfl
  | cons tid rest ih =>
    intro fs r h
    simp only [runTasks] at h
    split at h
    · cases h
    · split at h
      · cases h
      · cases h
        rename_i hrest
        simpa using ih _ _ hrest
    · split at h
      · cases h
      · cases h
        rename_i hrest
        simpa using ih _ _ hrest
    · simp only [Bool.false_eq_true, if_false] at h
      split at h
      · cases h
      · cases h
        rename_i hrest
        simpa using ih _ _ hrest

theorem workerLoop_persist_empty (Q wid : String) (exec : String → Int)
    (intf : FS → FS) (oneTask : Bool) (fs : FS)
    (h : fs.listDir (readyDir Q) = []) :
    ∀ fuel, workerLoop Q wid exec intf true oneTask fs fuel =
      .ok (fs, .running) := by
  intro fuel
  induction fuel with
  | zero => rfl
  | succ f ih =>
    have hiter : workerIter Q wid exec intf true oneTask fs =
        .ok (fs, .looped, [.sleep]) := by
      simp [workerIter, h, runTasks]
    simp only [workerLoop, hiter]
    exact ih

/-- Claim C2 (amended): with `persist=false` (the default) and
`one_task=false` the worker exits with status 0 exactly when its
snapshot of `Q/ready` is empty, exiting immediately (no sleep before
the exit); with `persist=true` it idles indefinitely on an empty
queue; with `one_task=true` it exits 0 right after the first terminal
transition (rename into `done` or `failed`), leaving the rest of the
snapshot unprocessed. -/
theorem c2_exit_behavior (Q wid : String) (exec : String → Int) (fs : FS) :
    (∀ oneTask : Bool, fs.listDir (readyDir Q) = [] →
      workerIter Q wid exec (fun g => g) false oneTask fs =
        .ok (fs, .exitEmpty, [.exit0]))
    ∧ (∀ r, workerIter Q wid exec (fun g => g) false false fs = .ok r →
        (r.2.1 = .exitEmpty ↔ fs.listDir (readyDir Q) = []))
    ∧ (∀ oneTask fuel, fs.listDir (readyDir Q) = [] →
        workerLoop Q wid exec (fun g => g) true oneTask fs fuel =
          .ok (fs, .running))
    ∧ (∀ (rest : List String) (taskId : String) (fs1 : FS) (code : Int)
        (acts : List Act),
        processTask Q wid exec (fun g => g) fs taskId =
          .ok (fs1, .finished code, acts) →
        runTasks Q wid exec (fun g => g) true fs (taskId :: rest) =
          .ok (fs1, true, acts ++ [.exit0])) := by
  refine ⟨?_, ?_, ?_, ?_⟩
  · intro oneTask h
    exact workerIter_noPersist_empty Q wid exec (fun g => g) oneTask fs h
  · intro r hr
    constructor
    · intro hres
      by_contra hne
      have hcond : (!false && (fs.listDir (readyDir Q)).isEmpty) = false := by
        cases hl : fs.listDir (readyDir Q) with
        | nil => exact absurd hl hne
        | cons a as => rfl
      simp only [workerIter, hcond, Bool.false_eq_true, if_false] at hr
      split at hr
      · cases hr
      · cases hr
        rename_i heq
        have := runTasks_not_oneTask Q wid exec (fun g => g) _ _ _ heq
        simp at this
      · cases hr
        simp at hres
    · intro hl
      rw [workerIter_noPersist_empty Q wid exec (fun g => g) false fs hl] at hr
      cases hr
      rfl
  · intro oneTask fuel h
    exact workerLoop_persist_empty Q wid exec (fun g => g) oneTask fs h fuel
  · intro rest taskId fs1 code acts hp
    simp [runTasks, hp]

/-- Claim C2, the claim as stated is false at a concrete input: with a
task file present in `Q/queued` and nothing in `Q/ready`, the
non-persistent worker's pass exits 0 at once — its trace is exactly
`[exit0]`, with no sleep before the exit and with `Q/queued` nonempty,
contradicting "exits ... exactly when its snapshot of Q/queued is
empty (after sleeping T_poll)". -/
theorem c2_counterexample :
    workerIter "q" "w" (fun _ => 0) (fun g => g) false false
        ⟨[], [⟨"q/queued", "t", "x"⟩]⟩ =
      .ok (⟨[], [⟨"q/queued", "t", "x"⟩]⟩, .exitEmpty, [.exit0])
    ∧ (⟨[], [⟨"q/queued", "t", "x"⟩]⟩ : FS).read (queuedDir "q") "t" = some "x"
    ∧ Act.sleep ∉ ([Act.exit0] : List Act) := by
  exact ⟨rfl, rfl, by decide⟩

/-- Concrete instantiation of `c2_exit_behavior`. -/
theorem c2_exit_behavior_witness :
    workerIter "q" "w" (fun _ => 0) (fun g => g) false false FS.empty =
      .ok (FS.empty, .exitEmpty, [.exit0])
    ∧ workerLoop "q" "w" (fun _ => 0) (fun g => g) true false FS.empty 7 =
      .ok (FS.empty, .running) := by
  have h := c2_exit_behavior "q" "w" (fun _ => 0) FS.empty
  exact ⟨h.1 false rfl, h.2.2.1 false 7 rfl⟩

theorem processTask_released (Q wid : String) (exec : String → Int) (fs : FS)
    (taskId c : String) (h : fs.read (readyDir Q) taskId = some c)
    (hx : ¬ exec (readChk c) = 0) :
    processTask Q wid exec (fun g => g) fs taskId =
      .ok (((((fs.erase (readyDir Q) taskId).write (checkDir Q) taskId
            c).erase (checkDir Q) taskId).write (readyDir Q) taskId c),
        .released,
        [.rename (readyDir Q) (checkDir Q), .runCheck (readChk c),
         .rename (checkDir Q) (readyDir Q)])
    ∧ ((((fs.erase (readyDir Q) taskId).write (checkDir Q) taskId c).erase
          (checkDir Q) taskId).write (readyDir Q) taskId c).read
        (readyDir Q) taskId = some c
    ∧ ((((fs.erase (readyDir Q) taskId).write (checkDir Q) taskId c).erase
          (checkDir Q) taskId).write (readyDir Q) taskId c).read
        (checkDir Q) taskId = none
    ∧ (∀ d n : String, d ≠ readyDir Q → d ≠ checkDir Q →
        ((((fs.erase (readyDir Q) taskId).write (checkDir Q) taskId c).erase
            (checkDir Q) taskId).write (readyDir Q) taskId c).read d n =
          fs.read d n) := by
  have hrc : readyDir Q ≠ checkDir Q :=
    String.append_ne_of_ne Q "/ready" "/check" (by decide)
  have h1 := FS.rename_of_read fs (readyDir Q) taskId (checkDir Q) taskId c h
  have h2 := FS.read_write_self (fs.erase (readyDir Q) taskId)
    (checkDir Q) taskId c
  have h3 := FS.rename_of_read
    ((fs.erase (readyDir Q) taskId).write (checkDir Q) taskId c)
    (checkDir Q) taskId (readyDir Q) taskId c h2
  refine ⟨?_, FS.read_write_self _ _ _ _, ?_, ?_⟩
  · simp only [processTask, h1, h2, h3, ne_eq, hx, not_false_eq_true, if_true]
  · rw [FS.read_write_of_ne _ _ _ _ _ _ (ne_pair_of_dir_ne _ _ hrc)]
    exact FS.read_erase_self _ _ _
  · intro d n hd1 hd2
    rw [FS.read_write_of_ne _ _ _ _ _ _ (fun hh => hd1 hh.1.symm)]
    rw [FS.read_erase_of_ne _ _ _ _ _ (fun hh => hd2 hh.1.symm)]
    rw [FS.read_write_of_ne _ _ _ _ _ _ (fun hh => hd2 hh.1.symm)]
    rw [FS.read_erase_of_ne _ _ _ _ _ (fun hh => hd1 hh.1.symm)]

theorem processTask_finished (Q wid : String) (exec : String → Int) (fs : FS)
    (taskId c : String) (h : fs.read (readyDir Q) taskId = some c)
    (hx : exec (readChk c) = 0) :
    ∃ fs2, processTask Q wid exec (fun g => g) fs taskId =
        .ok (fs2, .finished (exec (readCmd c)),
          [.rename (readyDir Q) (checkDir Q), .runCheck (readChk c),
           .rename (checkDir Q) (activeDir Q), .banner wid,
           .runCmd (readCmd c),
           .rename (activeDir Q)
             (if exec (readCmd c) = 0 then doneDir Q else failedDir Q)])
      ∧ fs2.read (if exec (readCmd c) = 0 then doneDir Q else failedDir Q)
          taskId = some (c ++ ("\n=== " ++ wid ++ " ===\n")) := by
  have h1 := FS.rename_of_read fs (readyDir Q) taskId (checkDir Q) taskId c h
  have h2 := FS.read_write_self (fs.erase (readyDir Q) taskId)
    (checkDir Q) taskId c
  have h3 := FS.rename_of_read
    ((fs.erase (readyDir Q) taskId).write (checkDir Q) taskId c)
    (checkDir Q) taskId (activeDir Q) taskId c h2
  have h4 := FS.read_write_self
    (((fs.erase (readyDir Q) taskId).write (checkDir Q) taskId c).erase
      (checkDir Q) taskId) (activeDir Q) taskId c
  have h5 := FS.read_write_self
    ((((fs.erase (readyDir Q) taskId).write (checkDir Q) taskId c).erase
        (checkDir Q) taskId).write (activeDir Q) taskId c)
    (activeDir Q) taskId (c ++ ("\n=== " ++ wid ++ " ===\n"))
  have h6 := FS.rename_of_read
    (((((fs.erase (readyDir Q) taskId).write (checkDir Q) taskId c).erase
        (checkDir Q) taskId).write (activeDir Q) taskId c).write
      (activeDir Q) taskId (c ++ ("\n=== " ++ wid ++ " ===\n")))
    (activeDir Q) taskId
    (if exec (readCmd c) = 0 then doneDir Q else failedDir Q) taskId
    (c ++ ("\n=== " ++ wid ++ " ===\n")) h5
  refine ⟨((((((fs.erase (readyDir Q) taskId).write (checkDir Q) taskId
      c).erase (checkDir Q) taskId).write (activeDir Q) taskId c).write
      (activeDir Q) taskId (c ++ ("\n=== " ++ wid ++ " ===\n"))).erase
      (activeDir Q) taskId).write
      (if exec (readCmd c) = 0 then doneDir Q else failedDir Q) taskId
      (c ++ ("\n=== " ++ wid ++ " ===\n")), ?_, FS.read_write_self _ _ _ _⟩
  simp only [processTask, h1, h2, hx, ne_eq, not_true_eq_false,
    Bool.false_eq_true, if_false, h3, h4, FS.append, Option.getD_some, h6]

/-- Claim C6 (amended): when the precondition subprocess exits
non-zero, the worker renames the task from `check` back to the polled
`ready` directory and continues (the task never reaches `failed` for a
failing precondition); when it exits 0, the worker renames the task
from `check` to `active`. -/
theorem c6_precondition_gate (Q wid taskId c : String) (exec : String → Int)
    (fs : FS) (h : fs.read (readyDir Q) taskId = some c) :
    (¬ exec (readChk c) = 0 →
      ∃ fs2, processTask Q wid exec (fun g => g) fs taskId =
          .ok (fs2, .released,
            [.rename (readyDir Q) (checkDir Q), .runCheck (readChk c),
             .rename (checkDir Q) (readyDir Q)])
        ∧ fs2.read (readyDir Q) taskId = some c
        ∧ fs2.read (checkDir Q) taskId = none
        ∧ fs2.read (failedDir Q) taskId = fs.read (failedDir Q) taskId)
    ∧ (exec (readChk c) = 0 →
      ∃ fs2 rest, processTask Q wid exec (fun g => g) fs taskId =
          .ok (fs2, .finished (exec (readCmd c)),
            [.rename (readyDir Q) (checkDir Q), .runCheck (readChk c),
             .rename (checkDir Q) (activeDir Q)] ++ rest)) := by
  constructor
  · intro hx
    obtain ⟨he, hr, hc2, hframe⟩ :=
      processTask_released Q wid exec fs taskId c h hx
    refine ⟨_, he, hr, hc2, hframe (failedDir Q) taskId ?_ ?_⟩
    · exact String.append_ne_of_ne Q "/failed" "/ready" (by decide)
    · exact String.append_ne_of_ne Q "/failed" "/check" (by decide)
  · intro hx
    obtain ⟨fs2, he, _⟩ := processTask_finished Q wid exec fs taskId c h hx
    exact ⟨fs2,
      [.banner wid, .runCmd (readCmd c),
       .rename (activeDir Q)
         (if exec (readCmd c) = 0 then doneDir Q else failedDir Q)],
      by rw [he]; rfl⟩

/-- Claim C6, the claim as stated is false at a concrete input: a task
whose precondition fails is renamed from `q/check` back into `q/ready`;
after the pass, `q/queued` (the directory the claim names) holds
nothing, and the rename trace names `q/check` and `q/ready`, never
`q/checking` or `q/queued`. -/
theorem c6_counterexample :
    processTask "q" "w" (fun _ => 1) (fun g => g)
        ⟨[], [⟨"q/ready", "t", "false\n---\nrun"⟩]⟩ "t" =
      .ok (⟨[], [⟨"q/ready", "t", "false\n---\nrun"⟩]⟩, .released,
        [.rename "q/ready" "q/check", .runCheck "false\n",
         .rename "q/check" "q/ready"])
    ∧ (⟨[], [⟨"q/ready", "t", "false\n---\nrun"⟩]⟩ : FS).read
        (queuedDir "q") "t" = none
    ∧ (⟨[], [⟨"q/ready", "t", "false\n---\nrun"⟩]⟩ : FS).read
        (readyDir "q") "t" = some "false\n---\nrun" :=
  ⟨rfl, rfl, rfl⟩

/-- Concrete instantiation of `c6_precondition_gate`. -/
theorem c6_precondition_gate_witness :
    ∃ fs2 rest, processTask "q" "w" (fun s => if s = "true\n" then 0 else 1)
        (fun g => g) ⟨[], [⟨"q/ready", "t", "true\n---\nrun"⟩]⟩ "t" =
      .ok (fs2, .finished 1,
        [.rename (readyDir "q") (checkDir "q"), .runCheck "true\n",
         .rename (checkDir "q") (activeDir "q")] ++ rest) := by
  have h := (c6_precondition_gate "q" "w" "t" "true\n---\nrun"
    (fun s => if s = "true\n" then 0 else 1)
    ⟨[], [⟨"q/ready", "t", "true\n---\nrun"⟩]⟩ rfl).2 (by decide)
  obtain ⟨fs2, rest, he⟩ := h
  refine ⟨fs2, rest, ?_⟩
  rw [he]
  rfl

/-- Claim C8 (amended): with no `---` line the precondition text is the
whole file content (so a failing whole-content precondition sends the
task back to the polled `ready` directory), and a zero-byte task file
is an empty precondition plus empty command and is moved immediately
to `done`. -/
theorem c8_missing_separator (Q wid taskId : String) (exec : String → Int)
    (fs : FS) :
    (∀ content : String,
      (∀ l ∈ pyLines content, pyStartsWith l "---" = false) →
      readChk content = content)
    ∧ (∀ content : String, fs.read (readyDir Q) taskId = some content →
        (∀ l ∈ pyLines content, pyStartsWith l "---" = false) →
        ¬ exec content = 0 →
        ∃ fs2, processTask Q wid exec (fun g => g) fs taskId =
            .ok (fs2, .released,
              [.rename (readyDir Q) (checkDir Q), .runCheck content,
               .rename (checkDir Q) (readyDir Q)])
          ∧ fs2.read (readyDir Q) taskId = some content)
    ∧ (fs.read (readyDir Q) taskId = some "" → exec "" = 0 →
        ∃ fs2, processTask Q wid exec (fun g => g) fs taskId =
            .ok (fs2, .finished 0,
              [.rename (readyDir Q) (checkDir Q), .runCheck "",
               .rename (checkDir Q) (activeDir Q), .banner wid, .runCmd "",
               .rename (activeDir Q) (doneDir Q)])
          ∧ fs2.read (doneDir Q) taskId =
            some ("\n=== " ++ wid ++ " ===\n")) := by
  have hwhole : ∀ content : String,
      (∀ l ∈ pyLines content, pyStartsWith l "---" = false) →
      readChk content = content := by
    intro content hc
    rw [readChk, chkLines_all_data (pyLines content) hc, joinStr_pyLines]
  refine ⟨hwhole, ?_, ?_⟩
  · intro content h hc hx
    have hx2 : ¬ exec (readChk content) = 0 := by
      rw [hwhole content hc]
      exact hx
    obtain ⟨he, hr, _, _⟩ :=
      processTask_released Q wid exec fs taskId content h hx2
    refine ⟨_, ?_, hr⟩
    rw [he, hwhole content hc]
  · intro h hx
    have hx2 : exec (readChk "") = 0 := hx
    obtain ⟨fs2, he, hread⟩ :=
      processTask_finished Q wid exec fs taskId "" h hx2
    have hcmd : readCmd "" = "" := rfl
    rw [hcmd, hx, if_pos rfl] at he hread
    rw [strEmptyAppend] at hread
    exact ⟨fs2, by rw [he]; rfl, hread⟩

/-- Claim C8, the directory aspect of the claim as stated is false at a
concrete input: a separator-free task file whose content fails as a
shell command returns to `q/ready`, while `q/queued` (the directory the
claim names) holds nothing; the whole content is run as the
precondition. -/
theorem c8_counterexample :
    processTask "q" "w" (fun _ => 1) (fun g => g)
        ⟨[], [⟨"q/ready", "t", "boguscmd"⟩]⟩ "t" =
      .ok (⟨[], [⟨"q/ready", "t", "boguscmd"⟩]⟩, .released,
        [.rename "q/ready" "q/check", .runCheck "boguscmd",
         .rename "q/check" "q/ready"])
    ∧ (⟨[], [⟨"q/ready", "t", "boguscmd"⟩]⟩ : FS).read
        (queuedDir "q") "t" = none :=
  ⟨rfl, rfl⟩

/-- Concrete instantiation of `c8_missing_separator`: a zero-byte task
file goes straight to `done` with only the worker banner appended. -/
theorem c8_missing_separator_witness :
    ∃ fs2, processTask "q" "w" (fun _ => 0) (fun g => g)
        ⟨[], [⟨"q/ready", "t", ""⟩]⟩ "t" =
      .ok (fs2, .finished 0,
        [.rename (readyDir "q") (checkDir "q"), .runCheck "",
         .rename (checkDir "q") (activeDir "q"), .banner "w", .runCmd "",
         .rename (activeDir "q") (doneDir "q")])
      ∧ fs2.read (doneDir "q") "t" = some "\n=== w ===\n" := by
  exact (c8_missing_separator "q" "w" "t" (fun _ => 0)
    ⟨[], [⟨"q/ready", "t", ""⟩]⟩).2.2 rfl rfl

/-- Claim C10: if the task file vanishes from `check` while the
precondition runs, the unguarded promotion rename
(`task_file.rename(active)`, worker.py line 101) raises an uncaught
`FileNotFoundError`, which propagates out of the loop and aborts the
worker with a non-zero exit; in contrast the claim-step rename
(worker.py lines 74-79) catches `FileNotFoundError` and skips the
entry. -/
theorem c10_unguarded_promote (Q wid taskId c : String)
    (exec : String → Int) (fs : FS) :
    (fs.read (readyDir Q) taskId = some c → exec (readChk c) = 0 →
      processTask Q wid exec (fun g => g.erase (checkDir Q) taskId) fs
        taskId = .error .fileNotFound)
    ∧ (fs.read (readyDir Q) taskId = none →
      processTask Q wid exec (fun g => g.erase (checkDir Q) taskId) fs
        taskId = .ok (fs, .skipped, []))
    ∧ (∀ (intf : FS → FS) (persist oneTask : Bool) (e : PyErr) (fuel : Nat),
        workerIter Q wid exec intf persist oneTask fs = .error e →
        workerLoop Q wid exec intf persist oneTask fs (fuel + 1) =
          .error e) := by
  refine ⟨?_, ?_, ?_⟩
  · intro h hx
    have h1 := FS.rename_of_read fs (readyDir Q) taskId (checkDir Q) taskId c h
    have h2 := FS.read_write_self (fs.erase (readyDir Q) taskId)
      (checkDir Q) taskId c
    have h3 : ((((fs.erase (readyDir Q) taskId).write (checkDir Q) taskId
        c).erase (checkDir Q) taskId)).rename (checkDir Q) taskId
        (activeDir Q) taskId = none :=
      FS.rename_of_missing _ _ _ _ _ (FS.read_erase_self _ _ _)
    simp only [processTask, h1, h2, hx, ne_eq, not_true_eq_false,
      Bool.false_eq_true, if_false, h3]
  · intro h
    simp only [processTask, FS.rename_of_missing fs _ _ _ _ h]
  · intro intf persist oneTask e fuel h
    simp only [workerLoop, h]

/-- Concrete instantiation of `c10_unguarded_promote`. -/
theorem c10_unguarded_promote_witness :
    processTask "q" "w" (fun _ => 0) (fun g => g.erase (checkDir "q") "t")
      ⟨[], [⟨"q/ready", "t", "true\n---\nrun"⟩]⟩ "t" = .error .fileNotFound
    ∧ processTask "q" "w" (fun _ => 0) (fun g => g.erase (checkDir "q") "t")
      ⟨[], []⟩ "t" = .ok (⟨[], []⟩, .skipped, []) := by
  have h1 := (c10_unguarded_promote "q" "w" "t" "true\n---\nrun"
    (fun _ => 0) ⟨[], [⟨"q/ready", "t", "true\n---\nrun"⟩]⟩).1 rfl rfl
  have h2 := (c10_unguarded_promote "q" "w" "t" "true\n---\nrun"
    (fun _ => 0) ⟨[], []⟩).2.1 rfl
  exact ⟨h1, h2⟩

theorem mem_descendants_root_iff (t : ProcTree) (p : Nat) :
    p ∈ t.descendants ++ [t.rootPid] ↔ p ∈ t.pids := by
  cases t with
  | node q cs =>
    simp [ProcTree.pids, ProcTree.descendants, ProcTree.rootPid,
      List.mem_append, List.mem_cons, or_comm]

/-- Claim C4 (amended): delivery of SIGTERM while the task command runs
makes the worker SIGKILL every process in the tree rooted at the child,
rename the task file (same basename) from `active` back into the polled
`ready` directory, and exit with status 0; such a worker therefore
leaves the task it held in `ready`. -/
theorem c4_sigterm_handler (Q taskId c : String) (tree : ProcTree) (fs : FS)
    (h : fs.read (activeDir Q) taskId = some c) :
    (∀ p : Nat, (p, Sig.sigkill) ∈ (sigtermActiveHandler Q taskId tree fs).1 ↔
      p ∈ tree.pids)
    ∧ (∀ ps ∈ (sigtermActiveHandler Q taskId tree fs).1, ps.2 = Sig.sigkill)
    ∧ (sigtermActiveHandler Q taskId tree fs).2.1 =
        some ((fs.erase (activeDir Q) taskId).write (readyDir Q) taskId c)
    ∧ ((fs.erase (activeDir Q) taskId).write (readyDir Q) taskId c).read
        (readyDir Q) taskId = some c
    ∧ ((fs.erase (activeDir Q) taskId).write (readyDir Q) taskId c).read
        (activeDir Q) taskId = none
    ∧ (sigtermActiveHandler Q taskId tree fs).2.2 = 0 := by
  have hra : readyDir Q ≠ activeDir Q :=
    String.append_ne_of_ne Q "/ready" "/active" (by decide)
  refine ⟨?_, ?_, ?_, FS.read_write_self _ _ _ _, ?_, rfl⟩
  · intro p
    show (p, Sig.sigkill) ∈ kill_proc_tree tree .sigkill true ↔ p ∈ tree.pids
    unfold kill_proc_tree
    rw [if_pos rfl]
    constructor
    · intro hm
      obtain ⟨p2, hp2, he⟩ := List.mem_map.mp hm
      have hpp : p2 = p := congrArg Prod.fst he
      rw [hpp] at hp2
      exact (mem_descendants_root_iff tree p).mp hp2
    · intro hp
      exact List.mem_map.mpr
        ⟨p, (mem_descendants_root_iff tree p).mpr hp, rfl⟩
  · intro ps hps
    obtain ⟨p2, _, he⟩ := List.mem_map.mp hps
    rw [← he]
  · show fs.rename (activeDir Q) taskId (readyDir Q) taskId = _
    exact FS.rename_of_read fs _ _ _ _ c h
  · rw [FS.read_write_of_ne _ _ _ _ _ _ (ne_pair_of_dir_ne _ _ hra)]
    exact FS.read_erase_self _ _ _

/-- Claim C4, the claim as stated is false at a concrete input: after
the handler runs, the task is in `q/ready`, while `q/queued` (the
directory the claim says the worker leaves it in) holds nothing. -/
theorem c4_counterexample :
    (sigtermActiveHandler "q" "t" (.node 5 [])
        ⟨[], [⟨"q/active", "t", "x"⟩]⟩).2.1 =
      some ⟨[], [⟨"q/ready", "t", "x"⟩]⟩
    ∧ (⟨[], [⟨"q/ready", "t", "x"⟩]⟩ : FS).read (queuedDir "q") "t" = none
    ∧ (⟨[], [⟨"q/ready", "t", "x"⟩]⟩ : FS).read (readyDir "q") "t" =
      some "x" :=
  ⟨rfl, rfl, rfl⟩

/-- Concrete instantiation of `c4_sigterm_handler`: the whole tree
(child 5 with descendants 6 and 7) is SIGKILLed and the task returns
to `ready`. -/
theorem c4_sigterm_handler_witness :
    (∀ p : Nat, (p, Sig.sigkill) ∈
        (sigtermActiveHandler "q" "t" (.node 5 [.node 6 [.node 7 []]])
          ⟨[], [⟨"q/active", "t", "x"⟩]⟩).1 ↔
      p ∈ (ProcTree.node 5 [.node 6 [.node 7 []]]).pids)
    ∧ (sigtermActiveHandler "q" "t" (.node 5 [.node 6 [.node 7 []]])
        ⟨[], [⟨"q/active", "t", "x"⟩]⟩).2.2 = 0 := by
  have h := c4_sigterm_handler "q" "t" "x" (.node 5 [.node 6 [.node 7 []]])
    ⟨[], [⟨"q/active", "t", "x"⟩]⟩ rfl
  exact ⟨h.1, h.2.2.2.2.2⟩

/-- Claim C5: while supervising, with the task file gone from `active`:
if it is in `paused` the worker SIGSTOPs the process tree and sleeps
while the file stays in `paused`, SIGCONTs the tree when the file
reappears in `active` and resumes supervision; if it is in neither
`paused` nor `active` (externally deleted) the worker SIGKILLs the tree
and breaks out without renaming the task into `done` or `failed`.
(The same holds when the file disappears entirely during the pause.) -/
theorem c5_supervision (sched : Nat → World) (oneTask : Bool)
    (t k fuel : Nat) :
    ((sched t).poll = none → (sched t).inActive = false →
      (∀ i, i < k → (sched (t + i)).inPaused = true) →
      (sched (t + k)).inPaused = false → (sched (t + k)).inActive = true →
      0 < k → k < fuel →
      supervise sched oneTask (fuel + 1) t =
        (.sigstopTree :: (List.replicate k .sleep ++ .sigcontTree :: .sleep ::
            (supervise sched oneTask fuel (t + k + 1)).1),
          (supervise sched oneTask fuel (t + k + 1)).2))
    ∧ ((sched t).poll = none → (sched t).inActive = false →
      (∀ i, i < k → (sched (t + i)).inPaused = true) →
      (sched (t + k)).inPaused = false → (sched (t + k)).inActive = false →
      0 < k → k < fuel →
      supervise sched oneTask (fuel + 1) t =
        (.sigstopTree :: (List.replicate k .sleep ++ [.sigkillTree]),
          .cancelled)
      ∧ SAct.renameDone ∉ (supervise sched oneTask (fuel + 1) t).1
      ∧ SAct.renameFailed ∉ (supervise sched oneTask (fuel + 1) t).1)
    ∧ ((sched t).poll = none → (sched t).inActive = false →
      (sched t).inPaused = false →
      supervise sched oneTask (fuel + 1) t = ([.sigkillTree], .cancelled)
      ∧ SAct.renameDone ∉ (supervise sched oneTask (fuel + 1) t).1
      ∧ SAct.renameFailed ∉ (supervise sched oneTask (fuel + 1) t).1) := by
  refine ⟨?_, ?_, ?_⟩
  · intro hpoll hact hk hend hre hkpos hkfuel
    have hpau : (sched t).inPaused = true := by
      have := hk 0 hkpos
      simpa using this
    have hw := pauseWait_eq sched k t fuel hk hend hkfuel
    simp only [supervise, hpoll, hact, Bool.false_eq_true, if_false, hpau,
      if_true, hw, hre]
  · intro hpoll hact hk hend hre hkpos hkfuel
    have hpau : (sched t).inPaused = true := by
      have := hk 0 hkpos
      simpa using this
    have hw := pauseWait_eq sched k t fuel hk hend hkfuel
    have heq : supervise sched oneTask (fuel + 1) t =
        (.sigstopTree :: (List.replicate k .sleep ++ [.sigkillTree]),
          .cancelled) := by
      simp only [supervise, hpoll, hact, Bool.false_eq_true, if_false, hpau,
        if_true, hw, hre]
    refine ⟨heq, ?_, ?_⟩
    · rw [heq]
      simp [List.mem_append, List.mem_replicate]
    · rw [heq]
      simp [List.mem_append, List.mem_replicate]
  · intro hpoll hact hpau
    have heq : supervise sched oneTask (fuel + 1) t =
        ([.sigkillTree], .cancelled) := by
      simp only [supervise, hpoll, hact, hpau, Bool.false_eq_true, if_false]
    refine ⟨heq, ?_, ?_⟩
    · rw [heq]
      simp
    · rw [heq]
      simp

/-- A concrete supervision schedule: at tick 0 the task file is in
`paused`, at tick 1 it is back in `active` with the child still
running, from tick 2 the child has exited with code 0. -/
def schedC5 : Nat → World := fun n =>
  if n = 0 then ⟨none, false, true⟩
  else if n = 1 then ⟨none, true, false⟩
  else ⟨some 0, true, false⟩

/-- Concrete instantiation of `c5_supervision`: pause for one tick,
resume, then the child exits 0 and the task is renamed into `done`. -/
theorem c5_supervision_witness :
    supervise schedC5 false 3 0 =
      ([.sigstopTree, .sleep, .sigcontTree, .sleep, .renameDone],
        .terminal 0) := by
  have h := (c5_supervision schedC5 false 0 1 2).1 rfl rfl
    (by
      intro i hi
      have : i = 0 := by omega
      rw [this]
      rfl)
    rfl rfl (by omega) (by omega)
  rw [h]
  rfl

end Roach
